import Mathlib

/-!
Shallow embedding of the trace-context propagation and function-instrumentation
engine of the `tracer` package (src/packages/tracer/lib): the hash codec
(`utils.ts`), the structured logger (`logger.ts`) and the trace context plus
`traceFn` wrapper (`context.ts`).  JavaScript strings are modelled as Lean
strings or lists of characters, `undefined` as `Option.none`, thrown
exceptions as `Except.error`, and JSON-style payloads as an inductive value
type.  External library collaborators (lz-string compression, `JSON.parse` /
`JSON.stringify`) are passed in as explicit function parameters where a claim
depends on their contract.
-/

namespace Tracer

/-! ## Log levels (logger.ts, LOG_LEVELS) -/

/-- The closed set of log levels, in the order of the `LOG_LEVELS` array
`["error", "warn", "info", "debug", "verbose"]`. -/
inductive Level where
  | error
  | warn
  | info
  | debug
  | verbose
deriving DecidableEq, Repr

/-- `LOG_LEVELS.indexOf` for a level that is present in the array. -/
def levelIdx : Level → Nat
  | .error => 0
  | .warn => 1
  | .info => 2
  | .debug => 3
  | .verbose => 4

/-- `LOG_LEVELS.indexOf` applied to a possibly-`undefined` level: JavaScript
`indexOf` returns `-1` when the element is absent (in particular when the
instance level is `undefined`). -/
def levelIdxOpt : Option Level → Int
  | some l => (levelIdx l : Int)
  | none => -1

/-- Errors the logger can throw from `_log` / `critical`. -/
inductive LogErr where
  /-- `throw new Error("no log driver provided")` (logger.ts line 89). -/
  | noDriver
deriving DecidableEq, Repr

/-- The control-flow head of `Logger._log` (logger.ts lines 88-103): throw when
no driver is configured, emit nothing in silent mode, emit nothing when the
call level is less severe than the instance level.  Returns `true` when the
call proceeds to the driver. -/
def logGate (hasDriver : Bool) (silent : Bool) (instLevel : Option Level)
    (callLevel : Level) : Except LogErr Bool :=
  if !hasDriver then .error .noDriver
  else if silent then .ok false
  else if (levelIdx callLevel : Int) > levelIdxOpt instLevel then .ok false
  else .ok true

/-! ## Log payload values (logger.ts `_log` data sanitization)

`LVal` models a JavaScript value that may be passed as auxiliary log data:
plain JSON-style data plus `.ctx`, a raw `TraceContext` reference (which is
circular, so `JSON.stringify` throws on any value containing it). -/

/-- A JavaScript value appearing in log data. -/
inductive LVal where
  /-- A raw trace-context reference (as injected under the `$ctx` key). -/
  | ctx
  | null
  | bool (b : Bool)
  | num (n : Int)
  | str (s : String)
  | arr (xs : List LVal)
  | obj (fs : List (String × LVal))

mutual

/-- Whether a value contains a raw trace-context reference anywhere.  A
`TraceContext` holds its own logger which holds the context back, so
`JSON.stringify` throws on exactly these values. -/
def containsCtx : LVal → Bool
  | .ctx => true
  | .arr xs => containsCtxList xs
  | .obj fs => containsCtxFields fs
  | _ => false

def containsCtxList : List LVal → Bool
  | [] => false
  | v :: vs => containsCtx v || containsCtxList vs

def containsCtxFields : List (String × LVal) → Bool
  | [] => false
  | (_, v) :: fs => containsCtx v || containsCtxFields fs

end

/-- JavaScript truthiness of a log value (`if (item.$ctx)`): `null`, `false`,
`0` and `""` are falsy, every object/array/context reference is truthy. -/
def lvalTruthy : LVal → Bool
  | .ctx => true
  | .null => false
  | .bool b => b
  | .num n => n != 0
  | .str s => s != ""
  | .arr _ => true
  | .obj _ => true

/-- Lookup of a key in a JavaScript object literal (first binding wins, as
object keys are unique). -/
def lookupLField (fs : List (String × LVal)) (k : String) : Option LVal :=
  match fs with
  | [] => none
  | (k', v) :: rest => if k' = k then some v else lookupLField rest k

/-- The per-item cleaning step of `Logger._log` (logger.ts lines 130-141): for
a plain-object item with a truthy `$ctx` property, drop the `$ctx` key
(rest-destructuring); every other item is kept as is. -/
def stripCtxTop (item : LVal) : LVal :=
  match item with
  | .obj fs =>
    match lookupLField fs "$ctx" with
    | some v => if lvalTruthy v then .obj (fs.filter (fun f => f.1 ≠ "$ctx")) else .obj fs
    | none => .obj fs
  | v => v

/-- `JSON.parse(JSON.stringify(v))` as used in `_log` (logger.ts lines
143-149): fails (the exception is swallowed, leaving `plainData` undefined)
exactly when the value holds a circular trace-context reference; otherwise it
deep-clones the value, which in this pure model is the value itself. -/
def jsonRoundTrip (v : LVal) : Option LVal :=
  if containsCtx v then none else some v

/-- The call finally made on the log driver: `driver.log(level, scopedMessage,
plainData, opts)`.  `data = none` models passing `undefined`. -/
structure DriverCall where
  level : Level
  message : String
  data : Option LVal

/-- `Logger._log` (logger.ts lines 83-160).  Returns the driver call made (or
`none` when the call was suppressed by silent mode / level filtering), or the
thrown error.  Note that the sanitized `dataToStringify` list is computed by
the source but never used: `JSON.stringify` receives the original `data`. -/
def logRun (hasDriver : Bool) (silent : Bool) (instLevel : Option Level)
    (scope : Option String) (level : Level) (message : String)
    (data : List LVal) : Except LogErr (Option DriverCall) :=
  match logGate hasDriver silent instLevel level with
  | .error e => .error e
  | .ok false => .ok none
  | .ok true =>
    let scopedMessage := match scope with
      | some sc => sc ++ " : " ++ message
      | none => message
    -- `dataToStringify` (lines 128-141): computed, then never read again.
    let _dataToStringify := data.map stripCtxTop
    let plainData : Option LVal :=
      if data.length > 0 then
        match data with
        | [d] => jsonRoundTrip d
        | ds => jsonRoundTrip (.arr ds)
      else none
    .ok (some { level := level, message := scopedMessage, data := plainData })

/-- The fields of a `Logger` instance (logger.ts lines 44-59).  The driver and
the bound trace context are modelled by their presence. -/
structure LoggerM where
  traceCtx : Bool
  driver : Bool
  level : Option Level
  scope : Option String
deriving DecidableEq, Repr

/-- The config object accepted by the `Logger` constructor. -/
structure LoggerCfg where
  traceCtx : Bool := false
  driver : Bool := false
  level : Option Level := none
  scope : Option String := none
deriving DecidableEq, Repr

/-- The `Logger` constructor (logger.ts lines 67-72): `_level = config.level ??
Logger.level` falls back to the static class level; the driver and context are
taken as given (possibly absent).  Construction never fails. -/
def mkLogger (globalLevel : Option Level) (cfg : LoggerCfg) : LoggerM :=
  { traceCtx := cfg.traceCtx
    driver := cfg.driver
    level := cfg.level <|> globalLevel
    scope := cfg.scope }

/-- `Logger.debug` (logger.ts line 169). -/
def debugRun (lg : LoggerM) (silent : Bool) (message : String)
    (data : List LVal) : Except LogErr (Option DriverCall) :=
  logRun lg.driver silent lg.level lg.scope .debug message data

/-- `Logger.verbose` (logger.ts line 180). -/
def verboseRun (lg : LoggerM) (silent : Bool) (message : String)
    (data : List LVal) : Except LogErr (Option DriverCall) :=
  logRun lg.driver silent lg.level lg.scope .verbose message data

/-- `Logger.info` (logger.ts line 191). -/
def infoRun (lg : LoggerM) (silent : Bool) (message : String)
    (data : List LVal) : Except LogErr (Option DriverCall) :=
  logRun lg.driver silent lg.level lg.scope .info message data

/-- `Logger.warn` (logger.ts line 202). -/
def warnRun (lg : LoggerM) (silent : Bool) (message : String)
    (data : List LVal) : Except LogErr (Option DriverCall) :=
  logRun lg.driver silent lg.level lg.scope .warn message data

/-- `Logger.error` (logger.ts line 213). -/
def errorRun (lg : LoggerM) (silent : Bool) (message : String)
    (data : List LVal) : Except LogErr (Option DriverCall) :=
  logRun lg.driver silent lg.level lg.scope .error message data

/-- Failures observable from `Logger.critical`. -/
inductive CritErr where
  /-- The underlying `_log` call threw. -/
  | log (e : LogErr)
  /-- `this._traceCtx.errorNotify(...)` dereferenced an absent context
  (TypeError at logger.ts line 226). -/
  | ctxUndefined
deriving DecidableEq, Repr

/-- The observable outcome of `Logger.critical`: driver calls made, error
notifications delivered to the owning context (recorded by the message the
`Error` was built from), and the error thrown, if any. -/
structure CritOut where
  calls : List DriverCall
  notes : List String
  err : Option CritErr

/-- `Logger.critical` (logger.ts lines 223-227): `_log("error", message,
...data)` followed by `this._traceCtx.errorNotify(new Error(message))`.  When
the logger has no bound context the second statement throws, after the log
emission already happened. -/
def criticalRun (lg : LoggerM) (silent : Bool) (message : String)
    (data : List LVal) : CritOut :=
  match logRun lg.driver silent lg.level lg.scope .error message data with
  | .error e => { calls := [], notes := [], err := some (.log e) }
  | .ok oc =>
    let calls := oc.toList
    if lg.traceCtx then { calls := calls, notes := [message], err := none }
    else { calls := calls, notes := [], err := some .ctxUndefined }

/-! ## JSON-style payload data and lodash deep merge (context.ts constructor)

The `data` payload carried by a trace context is an arbitrary caller-supplied
plain-data object.  `JVal` models such JSON-representable values; an object is
an ordered association list with unique keys, as JavaScript object literals
are.  `_.merge(object, ...sources)` walks the sources left to right and, per
key, recursively merges plain objects (index-wise for arrays) while letting
the later source overwrite otherwise. -/

/-- A JSON-representable JavaScript value. -/
inductive JVal where
  | null
  | bool (b : Bool)
  | num (n : Int)
  | str (s : String)
  | arr (xs : List JVal)
  | obj (fs : List (String × JVal))

/-- A plain-object payload: ordered fields with unique keys. -/
abbrev Obj := List (String × JVal)

mutual

/-- Lodash `merge` of a single source value into a target value: plain objects
merge per key, arrays merge index-wise, and in every other combination the
source value replaces the target value. -/
def mergeVal : JVal → JVal → JVal
  | .obj t, .obj s => .obj (mergeObjGo t s)
  | .arr t, .arr s => .arr (mergeArrGo t s)
  | _, s => s
termination_by _ b => (sizeOf b, 0)

/-- Merge the fields of a source object into a target object, key by key in
source order. -/
def mergeObjGo (t : Obj) : Obj → Obj
  | [] => t
  | (k, v) :: rest => mergeObjGo (setKeyMerge t k v) rest
termination_by s => (sizeOf s, 0)

/-- Assign source field `(k, v)` into the target fields: an existing binding
of `k` is merged with `v` in place, a missing one is appended. -/
def setKeyMerge : Obj → String → JVal → Obj
  | [], k, v => [(k, v)]
  | (k', v') :: t, k, v =>
    if k' = k then (k', mergeVal v' v) :: t else (k', v') :: setKeyMerge t k v
termination_by t _ v => (sizeOf v, 1 + sizeOf t)

/-- Index-wise array merge: positions present in the source are merged over
the target, trailing target elements survive. -/
def mergeArrGo : List JVal → List JVal → List JVal
  | t, [] => t
  | [], s0 :: s => s0 :: mergeArrGo [] s
  | t0 :: t, s0 :: s => mergeVal t0 s0 :: mergeArrGo t s
termination_by _ s => (sizeOf s, 0)

end

/-- Lookup of a key in a payload object. -/
def lookupObj (fs : Obj) (k : String) : Option JVal :=
  match fs with
  | [] => none
  | (k', v) :: rest => if k' = k then some v else lookupObj rest k

/-- The `data` initialization of the `TraceContext` constructor (context.ts
lines 747 and 755-758): `this.data = config.data`, then, when a parent with a
truthy `data` exists, `this.data = _.merge(\x7b\x7d, this.data, this._parent.data)`
— an empty fresh target merged with the child-supplied data first and the
parent's data second.  `parentData = none` covers both "no parent" and
"parent without data"; `_.merge` skips an `undefined` source, modelled by
`Option.getD` with the empty object. -/
def childDataOf (cfgData : Option Obj) (parentData : Option Obj) : Option Obj :=
  match parentData with
  | some pd => some (mergeObjGo (mergeObjGo [] (cfgData.getD [])) pd)
  | none => cfgData

/-! ### Object identity: a minimal store

To state that mutating the child's `data` after construction never changes the
parent's `data`, object identity must be observable: the store is a list of
object cells, a context's `data` is a reference (index) into it, and a
mutation overwrites one cell.  `_.merge(\x7b\x7d, ...)` writes into a freshly
allocated target, modelled by appending a new cell. -/

/-- A store of plain-object cells. -/
abbrev Heap := List Obj

/-- The constructor's `data` initialization at store level: with a parent data
cell present, the merged result is written to a freshly allocated cell (the
fresh object literal passed to `_.merge`); without one the child keeps the
caller-supplied object (allocated as its own cell, distinct from any parent
cell). -/
def ctxDataConstruct (h : Heap) (cfgData : Option Obj)
    (parentDataRef : Option Nat) : Heap × Option Nat :=
  match parentDataRef with
  | some p =>
    match h.get? p with
    | some pd =>
      (h ++ [mergeObjGo (mergeObjGo [] (cfgData.getD [])) pd], some h.length)
    | none => (h, none)
  | none =>
    match cfgData with
    | some o => (h ++ [o], some h.length)
    | none => (h, none)

/-! ## Trace contexts and call-stack lineage (context.ts) -/

/-- One record of the `callStackNamesChain`: `\x7bfnName, className, serviceName\x7d`
(types.ts `ICallStackNamesChainItem`). -/
structure Frame where
  fnName : String
  className : Option String
  serviceName : Option String
deriving DecidableEq, Repr

/-- JavaScript truthiness of a possibly-`undefined` string: `undefined` and
`""` are falsy. -/
def strTruthy : Option String → Bool
  | some s => s != ""
  | none => false

/-- `this.fnName || this._id`: the JavaScript `||` falls through on a falsy
(absent or empty) function name. -/
def fnOrId (fnName : Option String) (id : String) : String :=
  match fnName with
  | some s => if s = "" then id else s
  | none => id

/-- The identity and lineage fields of a `TraceContext` instance.  `isShared`
models the reference comparison `this === TraceContext.shared`, true exactly
for the one instance created and stored by `sharedInit`.  The `data` payload
and the span binding are modelled separately (`childDataOf`,
`ctxDataConstruct`, `traceFinishM`). -/
inductive Ctx where
  | mk (id : String) (fnName : Option String) (className : Option String)
      (serviceName : Option String) (chain : Option (List Frame))
      (parent : Option Ctx) (isShared : Bool)

/-- `_id` field. -/
def Ctx.id : Ctx → String
  | .mk i _ _ _ _ _ _ => i

/-- `_fnName` field. -/
def Ctx.fnName : Ctx → Option String
  | .mk _ f _ _ _ _ _ => f

/-- `_className` field. -/
def Ctx.className : Ctx → Option String
  | .mk _ _ c _ _ _ _ => c

/-- `_serviceName` field. -/
def Ctx.serviceName : Ctx → Option String
  | .mk _ _ _ s _ _ _ => s

/-- `_callStackNamesChain` field (the getter `callStackNamesChain` returns it
unchanged). -/
def Ctx.chain : Ctx → Option (List Frame)
  | .mk _ _ _ _ ch _ _ => ch

/-- `_parent` field. -/
def Ctx.parent : Ctx → Option Ctx
  | .mk _ _ _ _ _ p _ => p

/-- `this === TraceContext.shared`. -/
def Ctx.isShared : Ctx → Bool
  | .mk _ _ _ _ _ _ sh => sh

/-- The frame a context contributes to a chain walk:
`\x7bclassName, fnName: fnName || id, serviceName\x7d` (context.ts lines 779-783
and 797-803). -/
def frameOf (c : Ctx) : Frame :=
  { fnName := fnOrId c.fnName c.id
    className := c.className
    serviceName := c.serviceName }

/-- The parent-walking loop of `_evalCallStackNamesChain` (context.ts lines
786-806): frames are unshifted walking up the `parent` links; an ancestor
carrying a stored `callStackNamesChain` contributes that whole chain and stops
the walk.  Note the loop tests only the stored field of each ancestor — the
shared root has none and so contributes its own frame like any other
ancestor. -/
def walkUp : Option Ctx → List Frame
  | none => []
  | some (.mk id fn cn sn chain par _) =>
    match chain with
    | some ch => ch
    | none =>
      walkUp par ++ [{ fnName := fnOrId fn id, className := cn, serviceName := sn }]

/-- `_evalCallStackNamesChain` (context.ts lines 765-809): empty for the
shared context, the stored chain when one was supplied (reconstruction from a
hash), otherwise the parent walk followed by this context's own frame. -/
def evalChain (c : Ctx) : List Frame :=
  if c.isShared then []
  else
    match c.chain with
    | some ch => ch
    | none => walkUp c.parent ++ [frameOf c]

/-! ### Rendering the call-stack name (context.ts `callStackName` getter) -/

/-- Loop state of the `callStackName` getter: the group-tracking class and
service names, the finished groups, and the names of the open group. -/
structure RenderSt where
  currClassName : Option String
  currServiceName : Option String
  names : List String
  currNames : List String

/-- `itemNames[0] = "[" + serviceName + "]" + itemNames[0]`. -/
def bracketService (sn : String) : List String → List String
  | [] => []
  | x :: xs => ("[" ++ sn ++ "]" ++ x) :: xs

/-- One iteration of the `for (const item of chain)` loop of `callStackName`
(context.ts lines 588-617). -/
def renderStep (ambient : Option String) (st : RenderSt) (item : Frame) :
    RenderSt :=
  let itemNames0 := [item.fnName]
  if item.className != st.currClassName || item.serviceName != st.currServiceName
  then
    let names' :=
      if st.currNames.length != 0
      then st.names ++ [String.intercalate "." st.currNames]
      else st.names
    let itemNames1 :=
      if strTruthy item.className
      then item.className.getD "" :: itemNames0
      else itemNames0
    let itemNames2 :=
      if strTruthy item.serviceName && item.serviceName != st.currServiceName
          && item.serviceName != ambient
      then bracketService (item.serviceName.getD "") itemNames1
      else itemNames1
    { currClassName := item.className
      currServiceName := item.serviceName
      names := names'
      currNames := [String.intercalate ":" itemNames2] }
  else
    { st with currNames := st.currNames ++ [String.intercalate ":" itemNames0] }

/-- The full rendering of a chain (context.ts lines 579-624): group
consecutive frames sharing class and service into dotted segments, join groups
with an arrow.  `ambient` is the process-wide `TraceContext.serviceName`. -/
def renderChain (ambient : Option String) (chain : List Frame) : String :=
  let st := chain.foldl (renderStep ambient)
    { currClassName := none, currServiceName := ambient
      names := [], currNames := [] }
  let names :=
    if st.currNames.length != 0
    then st.names ++ [String.intercalate "." st.currNames]
    else st.names
  String.intercalate "->" names

/-- The `callStackName` getter: evaluate the chain, then render it. -/
def callStackNameOf (ambient : Option String) (c : Ctx) : String :=
  renderChain ambient (evalChain c)

/-! ### Context construction and hash snapshots -/

/-- The identity/lineage slice of `ITraceContextConfig`. -/
structure CtxCfg where
  id : Option String := none
  fnName : Option String := none
  className : Option String := none
  serviceName : Option String := none
  callStackNamesChain : Option (List Frame) := none
  parent : Option Ctx := none

/-- The identity/lineage lines of the `TraceContext` constructor (context.ts
lines 732-746): `id = config.id ?? nanoid()` (`freshId` stands for the fresh
`nanoid()` value), `serviceName = config.serviceName ??
TraceContext.serviceName` (`ambient`), the chain, class and function names and
the parent are taken from the config.  A newly constructed instance is not the
static shared one. -/
def ctxNew (ambient : Option String) (freshId : String) (cfg : CtxCfg) : Ctx :=
  .mk (cfg.id.getD freshId) cfg.fnName cfg.className
    (cfg.serviceName <|> ambient) cfg.callStackNamesChain cfg.parent false

/-- `ITraceHashData` (types.ts lines 770-807): the snapshot carried by a trace
hash. -/
structure HashData where
  id : Option String := none
  className : Option String := none
  data : Option Obj := none
  fnName : Option String := none
  callStackNamesChain : Option (List Frame) := none
  serviceName : Option String := none
  spanHash : Option String := none

/-- `TraceContext.toHash` data assembly (context.ts lines 856-868): the chain
is evaluated eagerly, `serviceName` is the **static** `TraceContext.serviceName`
(`ambient`), and the span hash is included when a span is attached
(`spanToHash = none` models an absent span). -/
def toHashData (ambient : Option String) (c : Ctx) (data : Option Obj)
    (spanToHash : Option String) : HashData :=
  { callStackNamesChain := some (evalChain c)
    className := c.className
    data := data
    fnName := c.fnName
    id := some c.id
    serviceName := ambient
    spanHash := spanToHash }

/-- `TraceContext.fromHash` after decoding (context.ts lines 464-468): the
decoded snapshot is passed to the constructor as its config, so the
reconstructed context carries the snapshot's chain directly and has no parent
reference. -/
def ctxFromHashData (ambient : Option String) (freshId : String)
    (hd : HashData) : Ctx :=
  ctxNew ambient freshId
    { id := hd.id
      fnName := hd.fnName
      className := hd.className
      serviceName := hd.serviceName
      callStackNamesChain := hd.callStackNamesChain
      parent := none }

/-! ## Spans and `traceFinish` (context.ts lines 903-911, types.ts SpanStatus) -/

/-- The closed span status vocabulary (types.ts `SpanStatus`). -/
inductive SpanStatus where
  | aborted
  | alreadyExists
  | cancelled
  | dataLoss
  | deadlineExceeded
  | failedPrecondition
  | internalError
  | invalidArgument
  | notFound
  | ok
  | outOfRange
  | permissionDenied
  | resourceExhausted
  | unauthenticated
  | unavailable
  | unimplemented
  | unknownError
deriving DecidableEq, Repr

/-- The observable state of a driver span attached to a context: its status
and how many times `finish()` has been called on it. -/
structure SpanM where
  status : SpanStatus
  finishCount : Nat
deriving DecidableEq, Repr

/-- `TraceContext.traceFinish` (context.ts lines 903-911): when a span is
attached, assign the status and call `span.finish()`; otherwise do nothing.
The `span` field itself is never cleared. -/
def traceFinishM (span : Option SpanM) (status : SpanStatus) : Option SpanM :=
  match span with
  | none => none
  | some sp => some { status := status, finishCount := sp.finishCount + 1 }

/-! ## Process-wide shared state and `sharedInit` (context.ts lines 247-436) -/

/-- `TraceContextInjectMode` (types.ts lines 427-444). -/
inductive InjectMode where
  | inFirstArgObject
  | asArg
deriving DecidableEq, Repr

/-- `ITraceContextSharedInitConfig`: drivers are modelled by their presence. -/
structure SharedInitCfg where
  injectMode : Option InjectMode := none
  logDriver : Bool := false
  logLevel : Option Level := none
  shouldLogStartEnd : Option Bool := none
  serviceColor : Option String := none
  serviceName : Option String := none
  traceDriver : Bool := false
  shouldRecordTracing : Option Bool := none

/-- The static fields of `TraceContext` plus the static `Logger.level`,
i.e. the process-wide mutable state touched by `sharedInit`. -/
structure GState where
  serviceName : Option String
  serviceColor : Option String
  logLevel : Option Level
  shouldLogStartEnd : Bool
  traceDriver : Bool
  shouldRecordTracing : Bool
  logDriver : Bool
  shared : Option Ctx
  injectMode : Option InjectMode
  loggerLevel : Option Level
  traceDriverInited : Bool
  logDriverInited : Option (Option String)

/-- The static initializers before any `sharedInit` call (context.ts lines
247-298, logger.ts line 37). -/
def initialGState : GState :=
  { serviceName := none
    serviceColor := none
    logLevel := some .info
    shouldLogStartEnd := true
    traceDriver := false
    shouldRecordTracing := true
    logDriver := false
    shared := none
    injectMode := none
    loggerLevel := some .info
    traceDriverInited := false
    logDriverInited := none }

/-- `TraceContext.sharedInit` (context.ts lines 398-436): when a shared
context already exists the whole body is skipped and it is returned; otherwise
every static field is assigned from the config (`logDriver` falls back to a
fresh `ConsoleLogDriver`, so a log driver is always present afterwards), a
shared context `new TraceContext(\x7bfnName: "main"\x7d)` is created and stored
(`freshId` stands for its `nanoid()`), `Logger.level` is overwritten with
`config.logLevel`, and the drivers present are initialized. -/
def sharedInitM (s : GState) (cfg : SharedInitCfg) (freshId : String) :
    GState × Ctx :=
  match s.shared with
  | some sh => (s, sh)
  | none =>
    let sh := Ctx.mk freshId (some "main") none cfg.serviceName none none true
    ({ serviceName := cfg.serviceName
       serviceColor := cfg.serviceColor
       traceDriver := cfg.traceDriver
       logDriver := true
       logLevel := cfg.logLevel
       shared := some sh
       injectMode := some (cfg.injectMode.getD .asArg)
       shouldLogStartEnd := cfg.shouldLogStartEnd.getD true
       shouldRecordTracing := cfg.shouldRecordTracing.getD true
       loggerLevel := cfg.logLevel
       traceDriverInited := cfg.traceDriver
       logDriverInited := some cfg.serviceName }, sh)

/-! ## The hash codec (utils.ts lines 817-851)

`hashEncode` stringifies the snapshot to JSON, compresses it with lz-string's
`compressToBase64` and prepends the fixed `$TRACE_HASH_` marker; `hashDecode`
removes the first occurrence of the marker (JavaScript `String.replace` with a
string pattern), decompresses and parses.  The two library collaborators are
passed as function parameters: `stringify`/`parse` model
`JSON.stringify`/`JSON.parse` on snapshots (`parse` returns `none` where
`JSON.parse` would throw on a non-JSON decompression result) and
`compress`/`decompress` model the lz-string pair. -/

/-- The `TRACE_HASH_PREFIX` constant `"$TRACE_HASH_"`. -/
def hashMark : List Char := "$TRACE_HASH_".toList

/-- Whether the pattern (first argument) matches at the start of the input
(second argument): JavaScript `startsWith`. -/
def matchesAt : List Char → List Char → Bool
  | [], _ => true
  | _ :: _, [] => false
  | p :: ps, c :: cs => p == c && matchesAt ps cs

/-- JavaScript `h.replace(pat, "")` for a string pattern: remove the first
occurrence of `pat`, leave the string unchanged when it never occurs. -/
def stripFirstOccur : List Char → List Char → List Char
  | [], pat => if matchesAt pat [] then ([] : List Char).drop pat.length else []
  | c :: rest, pat =>
    if matchesAt pat (c :: rest) then (c :: rest).drop pat.length
    else c :: stripFirstOccur rest pat

/-- `hashEncode` (utils.ts lines 828-834). -/
def hashEncodeP (stringify : HashData → List Char)
    (compress : List Char → List Char) (hashData : HashData) : List Char :=
  hashMark ++ compress (stringify hashData)

/-- `hashDecode` (utils.ts lines 841-851). -/
def hashDecodeP (parse : List Char → Option HashData)
    (decompress : List Char → List Char) (hash : List Char) :
    Option HashData :=
  parse (decompress (stripFirstOccur hash hashMark))

/-! ### A concrete serialization collaborator

An executable stringify/parse pair over `HashData` snapshots, used to
instantiate the codec parameters in witnesses (the production collaborator is
`JSON.stringify`/`JSON.parse`; any injective text encoding with a matching
parser satisfies the same pointwise contract).  The format is length-prefixed:
a string is `<length>:<chars>`, an optional value is `n` or `s<value>`, a
value carries a one-character tag. -/

/-- Decimal digits of a natural number, fuel-driven so it reduces
definitionally. -/
def natCharsGo : Nat → Nat → List Char → List Char
  | 0, _, acc => acc
  | fuel + 1, n, acc =>
    let d := Char.ofNat (48 + n % 10)
    if n < 10 then d :: acc else natCharsGo fuel (n / 10) (d :: acc)

/-- Decimal rendering of a natural number. -/
def natChars (n : Nat) : List Char := natCharsGo (n + 1) n []

/-- Serialize a string: decimal length, a colon, the characters. -/
def serStr (s : String) : List Char := natChars s.length ++ ':' :: s.data

/-- Serialize an optional value. -/
def serOpt (ser : α → List Char) : Option α → List Char
  | none => ['n']
  | some x => 's' :: ser x

/-- Serialize an integer: sign, decimal magnitude, a colon. -/
def serInt : Int → List Char
  | .ofNat m => '+' :: (natChars m ++ [':'])
  | .negSucc m => '-' :: (natChars (m + 1) ++ [':'])

mutual

/-- Serialize a payload value: `z` null, `b` bool, `i` int, `q` string,
`a`/`o` count-prefixed array/object. -/
def serJVal : JVal → List Char
  | .null => ['z']
  | .bool b => ['b', if b then 't' else 'f']
  | .num n => 'i' :: serInt n
  | .str s => 'q' :: serStr s
  | .arr xs => 'a' :: (natChars xs.length ++ ':' :: serJList xs)
  | .obj fs => 'o' :: (natChars fs.length ++ ':' :: serJFields fs)

def serJList : List JVal → List Char
  | [] => []
  | v :: vs => serJVal v ++ serJList vs

def serJFields : List (String × JVal) → List Char
  | [] => []
  | (k, v) :: fs => serStr k ++ (serJVal v ++ serJFields fs)

end

/-- Serialize an object payload: count-prefixed fields. -/
def serObj (fs : Obj) : List Char := natChars fs.length ++ ':' :: serJFields fs

/-- Serialize a chain frame: function name and the two optional names. -/
def serFrame (f : Frame) : List Char :=
  serStr f.fnName ++ (serOpt serStr f.className ++ serOpt serStr f.serviceName)

/-- Serialize a chain: count-prefixed frames. -/
def serFrames (fs : List Frame) : List Char :=
  natChars fs.length ++ ':' :: fs.foldr (fun f acc => serFrame f ++ acc) []

/-- Serialize a whole snapshot: its seven fields in a fixed order. -/
def serializeHashData (d : HashData) : List Char :=
  serOpt serStr d.id ++ (serOpt serStr d.className ++ (serOpt serObj d.data
    ++ (serOpt serStr d.fnName ++ (serOpt serFrames d.callStackNamesChain
    ++ (serOpt serStr d.serviceName ++ serOpt serStr d.spanHash)))))

/-- Parse a decimal number terminated by a colon. -/
def parseNatGo : Nat → List Char → Nat → Option (Nat × List Char)
  | 0, _, _ => none
  | _ + 1, [], _ => none
  | fuel + 1, c :: rest, acc =>
    if c = ':' then some (acc, rest)
    else if '0' ≤ c ∧ c ≤ '9' then parseNatGo fuel rest (acc * 10 + (c.toNat - 48))
    else none

/-- Parse a colon-terminated decimal number. -/
def parseNat (s : List Char) : Option (Nat × List Char) :=
  parseNatGo (s.length + 1) s 0

/-- Parse a length-prefixed string. -/
def parseStr (s : List Char) : Option (String × List Char) :=
  match parseNat s with
  | some (n, rest) =>
    if n ≤ rest.length then some (String.mk (rest.take n), rest.drop n)
    else none
  | none => none

/-- Parse an optional value: `n` for absent, `s` followed by the value. -/
def parseOpt (p : List Char → Option (α × List Char)) :
    List Char → Option (Option α × List Char)
  | [] => none
  | c :: rest =>
    if c = 'n' then some (none, rest)
    else if c = 's' then
      match p rest with
      | some (x, r) => some (some x, r)
      | none => none
    else none

/-- Parse a signed, colon-terminated integer. -/
def parseIntTok : List Char → Option (Int × List Char)
  | [] => none
  | c :: rest =>
    if c = '+' then (parseNat rest).map (fun p => ((p.1 : Int), p.2))
    else if c = '-' then (parseNat rest).map (fun p => (-(p.1 : Int), p.2))
    else none

mutual

/-- Parse a payload value, by tag. -/
def parseJVal : Nat → List Char → Option (JVal × List Char)
  | 0, _ => none
  | _ + 1, [] => none
  | fuel + 1, c :: rest =>
    if c = 'z' then some (.null, rest)
    else if c = 'b' then
      match rest with
      | 't' :: r => some (.bool true, r)
      | 'f' :: r => some (.bool false, r)
      | _ => none
    else if c = 'i' then (parseIntTok rest).map (fun p => (.num p.1, p.2))
    else if c = 'q' then (parseStr rest).map (fun p => (.str p.1, p.2))
    else if c = 'a' then
      match parseNat rest with
      | some (n, r) =>
        match parseJList fuel n r with
        | some (xs, r2) => some (.arr xs, r2)
        | none => none
      | none => none
    else if c = 'o' then
      match parseNat rest with
      | some (n, r) =>
        match parseJFields fuel n r with
        | some (fs, r2) => some (.obj fs, r2)
        | none => none
      | none => none
    else none

def parseJList : Nat → Nat → List Char → Option (List JVal × List Char)
  | 0, _, _ => none
  | _ + 1, 0, s => some ([], s)
  | fuel + 1, n + 1, s =>
    match parseJVal fuel s with
    | some (v, r) =>
      match parseJList fuel n r with
      | some (vs, r2) => some (v :: vs, r2)
      | none => none
    | none => none

def parseJFields : Nat → Nat → List Char → Option (Obj × List Char)
  | 0, _, _ => none
  | _ + 1, 0, s => some ([], s)
  | fuel + 1, n + 1, s =>
    match parseStr s with
    | some (k, r0) =>
      match parseJVal fuel r0 with
      | some (v, r) =>
        match parseJFields fuel n r with
        | some (fs, r2) => some ((k, v) :: fs, r2)
        | none => none
      | none => none
    | none => none

end

/-- Parse a count-prefixed object payload. -/
def parseObjTok (s : List Char) : Option (Obj × List Char) :=
  match parseNat s with
  | some (n, r) => parseJFields (r.length + 1) n r
  | none => none

/-- Parse one chain frame. -/
def parseFrame (s : List Char) : Option (Frame × List Char) :=
  match parseStr s with
  | some (fn, r1) =>
    match parseOpt parseStr r1 with
    | some (cn, r2) =>
      match parseOpt parseStr r2 with
      | some (sn, r3) =>
        some ({ fnName := fn, className := cn, serviceName := sn }, r3)
      | none => none
    | none => none
  | none => none

/-- Parse a fixed number of frames. -/
def parseFramesGo : Nat → List Char → Option (List Frame × List Char)
  | 0, s => some ([], s)
  | n + 1, s =>
    match parseFrame s with
    | some (f, r) =>
      match parseFramesGo n r with
      | some (fs, r2) => some (f :: fs, r2)
      | none => none
    | none => none

/-- Parse a count-prefixed chain. -/
def parseFrames (s : List Char) : Option (List Frame × List Char) :=
  match parseNat s with
  | some (n, r) => parseFramesGo n r
  | none => none

/-- Parse a whole snapshot; the input must be consumed exactly. -/
def parseHashData (s : List Char) : Option HashData :=
  (parseOpt parseStr s).bind fun (i, r1) =>
  (parseOpt parseStr r1).bind fun (cn, r2) =>
  (parseOpt parseObjTok r2).bind fun (dt, r3) =>
  (parseOpt parseStr r3).bind fun (fn, r4) =>
  (parseOpt parseFrames r4).bind fun (ch, r5) =>
  (parseOpt parseStr r5).bind fun (sn, r6) =>
  (parseOpt parseStr r6).bind fun (sp, r7) =>
  if r7.isEmpty then
    some { id := i, className := cn, data := dt, fnName := fn
           callStackNamesChain := ch, serviceName := sn, spanHash := sp }
  else none

/-! ## The `traceFn` wrapper, per-invocation (context.ts lines 1007-1230)

The model covers one invocation of the wrapped function on the synchronous
path: parent resolution from the arguments, span start, "start" logging, the
call itself, and the `finish` bookkeeping with its catch block.  The traced
function is modelled by its outcome (`Except.error` = synchronous throw); log
emissions and span operations are recorded as events.  The argument rewriting
(context injection) does not affect any of these observables and is not
modelled; whether the original function was invoked is recorded directly. -/

/-- Observable instrumentation events of one wrapped invocation, in order. -/
inductive Ev where
  /-- `traceStart` obtained a span from the trace driver. -/
  | spanStart
  /-- The "start" verbose log reached the driver. -/
  | logStart
  /-- The "end [ELAPSED=...]" verbose log reached the driver. -/
  | logEnd
  /-- The "fail" error log reached the driver. -/
  | logFail
  /-- `traceFinish(status)` finished the span. -/
  | spanFinish (status : SpanStatus)
deriving DecidableEq, Repr

/-- How a wrapped invocation can terminate abnormally. -/
inductive RunErr where
  /-- `TraceContext.fromHash` threw while decoding a malformed parent hash. -/
  | decodeFailure
  /-- The context logger threw (e.g. no log driver configured). -/
  | instr (e : LogErr)
  /-- The traced function itself threw; the error value is forwarded
  unchanged. -/
  | business (e : String)
deriving DecidableEq, Repr

/-- The per-invocation configuration after the `config ?? static` resolution
at the top of the wrapper (context.ts lines 1008-1014): the effective inject
and logging switches, the statically known function name, and the state of
the process-wide drivers seen by the context's logger and by `traceStart`. -/
structure WrapCfg where
  configParent : Option Ctx := none
  shouldLogStartEnd : Bool := true
  shouldRecordTracing : Bool := true
  hasTraceDriver : Bool := false
  autoTracing : Bool := true
  fnName : Option String := none
  hasLogDriver : Bool := true
  logLevel : Option Level := some .info
  silent : Bool := false

/-- An actual argument of the wrapped call, as seen by the parent scan:
a plain object (with its `$ctx` / `$traceHash` properties), a trace context
passed directly, a string, or anything else. -/
inductive WArg where
  | obj (ctx : Option Ctx) (traceHash : Option (List Char))
  | ctxArg (c : Ctx)
  | strArg (s : List Char)
  | other

/-- The argument scan (context.ts lines 1025-1040): first argument that is a
plain object (its `$ctx`/`$traceHash` are taken, found or not), a context
instance, or a string starting with the hash marker wins and stops the
scan. -/
def scanParent : List WArg → Option Ctx × Option (List Char)
  | [] => (none, none)
  | .obj c h :: rest => if c.isSome || h.isSome then (c, h) else scanParent rest
  | .ctxArg c :: _ => (some c, none)
  | .strArg s :: rest =>
    if matchesAt hashMark s then (none, some s) else scanParent rest
  | .other :: rest => scanParent rest

/-- The `traceStart` span-creation condition (context.ts lines 877-894): a
trace driver is configured, `autoTracing` is on and the context has a truthy
function name. -/
def traceStartFires (cfg : WrapCfg) : Bool :=
  cfg.hasTraceDriver && cfg.autoTracing && strTruthy cfg.fnName

/-- The `finish` closure (context.ts lines 1123-1143): the "end" verbose log
(which itself can throw, e.g. without a log driver), then
`traceFinish(error ? INTERNAL_ERROR : OK)` when tracing was recorded and a
span is attached.  Returns the events it produced and the error it threw, if
any. -/
def finishRun (cfg : WrapCfg) (spanStarted : Bool) (isError : Bool) :
    List Ev × Option LogErr :=
  let spanEvs :=
    if cfg.shouldRecordTracing && spanStarted
    then [Ev.spanFinish (if isError then .internalError else .ok)]
    else []
  if cfg.shouldLogStartEnd then
    match logGate cfg.hasLogDriver cfg.silent cfg.logLevel .verbose with
    | .error e => ([], some e)
    | .ok em => ((if em then [Ev.logEnd] else []) ++ spanEvs, none)
  else (spanEvs, none)

/-- The outcome of one wrapped invocation. -/
structure RunOut where
  result : Except RunErr Int
  events : List Ev
  invoked : Bool

/-- One invocation of a `traceFn`-wrapped function on the synchronous path
(context.ts lines 1007-1230).  `parse`/`decompress` are the decode
collaborators of `hashDecode`, `freshId`/`ambient` stand for `nanoid()` and
the static service name, `args` are the actual arguments and `fn` the traced
function's synchronous outcome. -/
def traceFnRun (cfg : WrapCfg) (parse : List Char → Option HashData)
    (decompress : List Char → List Char) (freshId : String)
    (ambient : Option String) (args : List WArg)
    (fn : Except String Int) : RunOut :=
  -- parent resolution (an explicit `config.parent` skips the scan)
  let scanned : Option Ctx × Option (List Char) :=
    match cfg.configParent with
    | some p => (some p, none)
    | none => scanParent args
  let resolved : Except Unit (Option Ctx) :=
    match scanned.1 with
    | some c => .ok (some c)
    | none =>
      match scanned.2 with
      | some h =>
        match hashDecodeP parse decompress h with
        | some hd => .ok (some (ctxFromHashData ambient freshId hd))
        | none => .error ()
      | none => .ok none
  match resolved with
  | .error _ =>
    -- the decode exception propagates out of the wrapper; the traced
    -- function is never called
    { result := .error .decodeFailure, events := [], invoked := false }
  | .ok _parentCtx =>
    let spanStarted := cfg.shouldRecordTracing && traceStartFires cfg
    let evs0 := if spanStarted then [Ev.spanStart] else []
    let startOut : Except LogErr (List Ev) :=
      if cfg.shouldLogStartEnd then
        match logGate cfg.hasLogDriver cfg.silent cfg.logLevel .verbose with
        | .error e => .error e
        | .ok em => .ok (evs0 ++ if em then [Ev.logStart] else [])
      else .ok evs0
    match startOut with
    | .error e =>
      -- the "start" log threw before the call
      { result := .error (.instr e), events := evs0, invoked := false }
    | .ok evs1 =>
      match fn with
      | .error e =>
        -- synchronous throw: `fnToCall(...newArgs)` at line 1192 is outside
        -- the try block, so the exception propagates directly
        { result := .error (.business e), events := evs1, invoked := true }
      | .ok v =>
        match finishRun cfg spanStarted false with
        | (fevs, none) =>
          { result := .ok v, events := evs1 ++ fevs, invoked := true }
        | (fevs, some _) =>
          -- catch around `finish()` (lines 1214-1226): log "fail", then
          -- `finish(null, error)` again; either may throw in turn
          match logGate cfg.hasLogDriver cfg.silent cfg.logLevel .error with
          | .error e2 =>
            { result := .error (.instr e2), events := evs1 ++ fevs
              invoked := true }
          | .ok em2 =>
            let evs2 := evs1 ++ fevs ++ if em2 then [Ev.logFail] else []
            match finishRun cfg spanStarted true with
            | (fevs2, none) =>
              { result := .ok v, events := evs2 ++ fevs2, invoked := true }
            | (fevs2, some e3) =>
              { result := .error (.instr e3), events := evs2 ++ fevs2
                invoked := true }

/-- A fully-enabled instrumentation configuration: start/end logging and span
recording on, trace and log drivers present, verbose level, not silent — the
configuration under which every instrumentation observable is live. -/
def fullCfg : WrapCfg :=
  { configParent := none
    shouldLogStartEnd := true
    shouldRecordTracing := true
    hasTraceDriver := true
    autoTracing := true
    fnName := some "f"
    hasLogDriver := true
    logLevel := some .verbose
    silent := false }

/-! ## Auxiliary lemmas -/

/-- A pattern matches at the start of itself followed by anything. -/
theorem matchesAt_append_self (pat b : List Char) :
    matchesAt pat (pat ++ b) = true := by
  induction pat with
  | nil => rfl
  | cons c cs ih => simp [matchesAt, ih]

/-- Removing the first occurrence of a pattern from a string that starts with
it leaves exactly the tail: the first occurrence is at position zero. -/
theorem stripFirstOccur_of_append (pat b : List Char) :
    stripFirstOccur (pat ++ b) pat = b := by
  have hp := matchesAt_append_self pat b
  have hd : (pat ++ b).drop pat.length = b := by simp
  cases hpb : pat ++ b with
  | nil =>
    rw [hpb] at hp hd
    rw [stripFirstOccur, if_pos hp]
    exact hd
  | cons c rest =>
    rw [hpb] at hp hd
    rw [stripFirstOccur, if_pos hp]
    exact hd

/-- Looking a key up in an object whose keys avoid it yields nothing. -/
theorem lookupObj_eq_none_of_not_mem (s : Obj) (k : String)
    (h : k ∉ s.map Prod.fst) : lookupObj s k = none := by
  induction s with
  | nil => rfl
  | cons a s ih =>
    obtain ⟨k₀, v₀⟩ := a
    simp only [List.map_cons, List.mem_cons] at h
    push_neg at h
    rw [lookupObj, if_neg (by simpa using (Ne.symm h.1))]
    exact ih h.2

/-- Assigning a fresh key appends the binding. -/
theorem setKeyMerge_append_of_not_mem (t : Obj) (k : String) (v : JVal)
    (h : k ∉ t.map Prod.fst) : setKeyMerge t k v = t ++ [(k, v)] := by
  induction t with
  | nil => simp [setKeyMerge]
  | cons a t ih =>
    obtain ⟨k₀, v₀⟩ := a
    simp only [List.map_cons, List.mem_cons] at h
    push_neg at h
    rw [setKeyMerge, if_neg (Ne.symm h.1)]
    simp [ih h.2]

/-- The lookup behaviour of a single source-field assignment: at the assigned
key the source value is merged over the previous binding (or inserted), every
other key is untouched. -/
theorem lookupObj_setKeyMerge (t : Obj) (k k' : String) (v : JVal) :
    lookupObj (setKeyMerge t k v) k' =
      if k' = k then some ((lookupObj t k).elim v (fun tv => mergeVal tv v))
      else lookupObj t k' := by
  induction t with
  | nil =>
    by_cases h : k' = k
    · subst h
      simp [setKeyMerge, lookupObj]
    · simp [setKeyMerge, lookupObj, h, Ne.symm h]
  | cons a t ih =>
    obtain ⟨k₀, v₀⟩ := a
    by_cases h1 : k₀ = k
    · subst h1
      by_cases h2 : k' = k₀
      · subst h2
        simp [setKeyMerge, lookupObj]
      · simp [setKeyMerge, lookupObj, h2, Ne.symm h2]
    · by_cases h2 : k' = k
      · subst h2
        simp [setKeyMerge, lookupObj, h1, ih, Ne.symm h1]
      · by_cases h3 : k₀ = k' <;>
          simp [setKeyMerge, lookupObj, h1, h2, h3, ih]

/-- The lookup behaviour of merging a whole source object (with unique keys,
as JavaScript object literals have) into a target: a key present in the source
ends up bound to the source value merged over the target's (the source — the
later `_.merge` argument — wins), a key absent from the source keeps the
target's binding. -/
theorem lookupObj_mergeObjGo (t s : Obj) (k : String)
    (hnd : (s.map Prod.fst).Nodup) :
    lookupObj (mergeObjGo t s) k =
      (lookupObj s k).elim (lookupObj t k)
        (fun sv => some ((lookupObj t k).elim sv (fun tv => mergeVal tv sv))) := by
  induction s generalizing t with
  | nil => simp [mergeObjGo, lookupObj]
  | cons a s ih =>
    obtain ⟨k₀, v₀⟩ := a
    simp only [List.map_cons, List.nodup_cons] at hnd
    rw [mergeObjGo, ih _ hnd.2]
    by_cases h : k₀ = k
    · subst h
      have hs : lookupObj s k₀ = none :=
        lookupObj_eq_none_of_not_mem s k₀ hnd.1
      rw [hs, lookupObj, if_pos rfl, lookupObj_setKeyMerge, if_pos rfl]
      rfl
    · rw [lookupObj, if_neg h, lookupObj_setKeyMerge, if_neg (fun hk => h hk.symm)]

/-- Merging a source with fresh, unique keys into a target appends it. -/
theorem mergeObjGo_append_disjoint (t s : Obj)
    (hnd : (s.map Prod.fst).Nodup)
    (hdisj : ∀ k, k ∈ s.map Prod.fst → k ∉ t.map Prod.fst) :
    mergeObjGo t s = t ++ s := by
  induction s generalizing t with
  | nil => simp [mergeObjGo]
  | cons a s ih =>
    obtain ⟨k₀, v₀⟩ := a
    simp only [List.map_cons, List.nodup_cons] at hnd
    rw [mergeObjGo, setKeyMerge_append_of_not_mem t k₀ v₀
      (hdisj k₀ (by simp))]
    rw [ih _ hnd.2]
    · simp
    · intro k hk
      simp only [List.map_append, List.mem_append]
      push_neg
      refine ⟨hdisj k (by simp [hk]), ?_⟩
      simp only [List.map_cons, List.map_nil, List.mem_singleton]
      intro hkk
      exact hnd.1 (hkk ▸ hk)

/-- `_.merge(\x7b\x7d, cfg)` rebuilds the config object unchanged when its keys
are unique. -/
theorem mergeObjGo_nil_eq (cfg : Obj) (hnd : (cfg.map Prod.fst).Nodup) :
    mergeObjGo [] cfg = cfg := by
  simpa using mergeObjGo_append_disjoint [] cfg hnd (by simp)

/-! ## Claim theorems -/

/-- C1: the code bug evaluated.  With every instrumentation observable live
(verbose level, drivers present, logging and tracing on), a wrapped function
that throws synchronously produces: the identical original error rethrown,
exactly one "start" log and one span start — but **no** "fail" log, **no**
"end" log and **no** span finish with error status, because
`fnToCall(...newArgs)` at context.ts line 1192 sits outside the try block (the
try only wraps the `finish()` bookkeeping call), so the exception propagates
before any failure handling runs.  The claim's "logs the failure, finishes the
span with error status" does not happen. -/
theorem sync_throw_skips_fail_log_and_span :
    traceFnRun fullCfg parseHashData id "N1" (some "svc") [] (.error "boom")
      = { result := .error (.business "boom")
          events := [.spanStart, .logStart], invoked := true } ∧
    Ev.logFail ∉ [Ev.spanStart, Ev.logStart] ∧
    Ev.logEnd ∉ [Ev.spanStart, Ev.logStart] ∧
    Ev.spanFinish .internalError ∉ [Ev.spanStart, Ev.logStart] := by
  refine ⟨rfl, by decide, by decide, by decide⟩

/-- C2 counterexample: a malformed trace-hash argument
(`"$TRACE_HASH_garbage"`, whose payload is not decodable) makes the wrapper
throw the decode failure **without invoking the original function**: the
`TraceContext.fromHash` call at context.ts line 1055 has no exception
handling, so the decode failure is not recovered locally and the business call
is prevented — the claim's "the original function is still invoked" is false
on the code. -/
theorem malformed_hash_prevents_call :
    (traceFnRun fullCfg parseHashData id "N1" (some "svc")
        [.strArg ("$TRACE_HASH_garbage".toList)] (.ok 42)).invoked = false ∧
    (traceFnRun fullCfg parseHashData id "N1" (some "svc")
        [.strArg ("$TRACE_HASH_garbage".toList)] (.ok 42)).result
      = .error .decodeFailure := ⟨rfl, rfl⟩

/-- C2 as amended: whenever the argument scan finds a parent trace hash (and
no live parent context), no explicit parent was configured and the hash cannot
be decoded, the wrapper throws the decode failure out of the wrapped call:
no tracing or logging happens and the original function is **not** invoked. -/
theorem malformed_hash_aborts_call (cfg : WrapCfg)
    (parse : List Char → Option HashData) (decompress : List Char → List Char)
    (freshId : String) (ambient : Option String) (args : List WArg)
    (h : List Char) (fn : Except String Int)
    (hcp : cfg.configParent = none)
    (hscan : scanParent args = (none, some h))
    (hdec : hashDecodeP parse decompress h = none) :
    traceFnRun cfg parse decompress freshId ambient args fn
      = { result := .error .decodeFailure, events := [], invoked := false } := by
  simp [traceFnRun, hcp, hscan, hdec]

/-- C2 witness: the amended behaviour evaluated at the concrete malformed
token `"$TRACE_HASH_x"`. -/
theorem malformed_hash_aborts_call_witness :
    scanParent [WArg.strArg ("$TRACE_HASH_x".toList)]
      = (none, some ("$TRACE_HASH_x".toList)) ∧
    hashDecodeP parseHashData id ("$TRACE_HASH_x".toList) = none ∧
    traceFnRun fullCfg parseHashData id "N2" (some "svc")
        [.strArg ("$TRACE_HASH_x".toList)] (.ok 7)
      = { result := .error .decodeFailure, events := [], invoked := false } :=
  ⟨rfl, rfl,
    malformed_hash_aborts_call fullCfg parseHashData id "N2" (some "svc")
      [.strArg ("$TRACE_HASH_x".toList)] ("$TRACE_HASH_x".toList) (.ok 7)
      rfl rfl rfl⟩

/-- C3: for every valid trace-context snapshot, decoding the encoded token
gives back the same snapshot.  `stringify`/`parse` and `compress`/`decompress`
are the JSON and lz-string collaborators; the hypotheses state their
documented contracts pointwise at the snapshot (the snapshot being "valid"
means exactly that JSON round-trips it).  The repository's own contribution —
prepending the `$TRACE_HASH_` marker on encode and removing its first
occurrence on decode — preserves the round trip because the first occurrence
of the marker in an encoded token is its position-zero prefix. -/
theorem hashDecode_hashEncode_roundtrip (stringify : HashData → List Char)
    (compress decompress : List Char → List Char)
    (parse : List Char → Option HashData) (d : HashData)
    (hcomp : decompress (compress (stringify d)) = stringify d)
    (hjson : parse (stringify d) = some d) :
    hashDecodeP parse decompress (hashEncodeP stringify compress d) = some d := by
  unfold hashDecodeP hashEncodeP
  rw [stripFirstOccur_of_append, hcomp, hjson]

/-- C3 witness: the round trip evaluated at a concrete snapshot, with the
executable length-prefixed serializer standing in for `JSON.stringify` /
`JSON.parse` and the identity function for the lz-string pair. -/
theorem hashDecode_hashEncode_roundtrip_witness :
    hashDecodeP parseHashData id (hashEncodeP serializeHashData id
      { id := some "AB", fnName := some "doWork", className := some "Svc"
        data := some [("k", .num 3), ("tags", .arr [.str "x", .null])]
        callStackNamesChain := some
          [{ fnName := "main", className := none, serviceName := some "svc" },
           { fnName := "doWork", className := some "Svc", serviceName := some "svc" }]
        serviceName := some "svc", spanHash := some "SH" }) =
    some
      { id := some "AB", fnName := some "doWork", className := some "Svc"
        data := some [("k", .num 3), ("tags", .arr [.str "x", .null])]
        callStackNamesChain := some
          [{ fnName := "main", className := none, serviceName := some "svc" },
           { fnName := "doWork", className := some "Svc", serviceName := some "svc" }]
        serviceName := some "svc", spanHash := some "SH" } :=
  hashDecode_hashEncode_roundtrip serializeHashData id id parseHashData _ rfl rfl

/-- C4 counterexample: with parent data `\x7bk: 1\x7d` and child-supplied data
`\x7bk: 2\x7d`, the constructed child's data is `\x7bk: 1\x7d` — the **parent's** value
survives, not the child's: the claim's "a same-key child value shadows the
parent's value" is false on the code, which passes the parent's data as the
**last** (winning) `_.merge` source. -/
theorem child_value_shadowed_by_parent :
    childDataOf (some [("k", .num 2)]) (some [("k", .num 1)])
      = some [("k", .num 1)] ∧
    childDataOf (some [("k", .num 2)]) (some [("k", .num 1)])
      ≠ some [("k", .num 2)] := by
  constructor <;>
    simp [childDataOf, mergeObjGo, setKeyMerge, mergeVal]

/-- C4 as amended: the child's data equals the child-supplied data deep-merged
with the parent's data where, on a same-key conflict, the **parent's** value
shadows the child's (`_.merge(\x7b\x7d, childData, parentData)` — later source
wins); the child still sees all of the parent's keys and keeps its own
non-conflicting keys; and because the merge writes into a freshly allocated
target object, overwriting the child's data cell after construction never
changes the parent's data cell. -/
theorem child_data_inherits_parent_last (hstore : Heap) (cfgData pd : Obj)
    (p : Nat) (hp : hstore.get? p = some pd)
    (hndc : (cfgData.map Prod.fst).Nodup)
    (hndp : (pd.map Prod.fst).Nodup) :
    childDataOf (some cfgData) (some pd) = some (mergeObjGo cfgData pd) ∧
    (∀ k pv, lookupObj pd k = some pv →
      lookupObj (mergeObjGo cfgData pd) k
        = some ((lookupObj cfgData k).elim pv (fun cv => mergeVal cv pv))) ∧
    (∀ k, lookupObj pd k = none →
      lookupObj (mergeObjGo cfgData pd) k = lookupObj cfgData k) ∧
    (ctxDataConstruct hstore (some cfgData) (some p)).2 = some hstore.length ∧
    (∀ newObj,
      (((ctxDataConstruct hstore (some cfgData) (some p)).1.set
          hstore.length newObj).get? p) = some pd) := by
  have hplen : p < hstore.length := by
    by_contra hc
    push_neg at hc
    rw [List.get?_eq_getElem?, List.getElem?_eq_none hc] at hp
    exact Option.noConfusion hp
  have hp' : hstore[p]? = some pd := by
    rw [← List.get?_eq_getElem?]
    exact hp
  refine ⟨?_, ?_, ?_, ?_, ?_⟩
  · simp [childDataOf, mergeObjGo_nil_eq cfgData hndc]
  · intro k pv hk
    rw [lookupObj_mergeObjGo _ _ _ hndp, hk]
    rfl
  · intro k hk
    rw [lookupObj_mergeObjGo _ _ _ hndp, hk]
    rfl
  · simp [ctxDataConstruct, hp']
  · intro newObj
    simp only [ctxDataConstruct, List.get?_eq_getElem?, hp']
    rw [List.getElem?_set_ne (Nat.ne_of_gt hplen),
      List.getElem?_append_left hplen]
    exact hp'

/-- C4 witness: the amended merge and isolation behaviour evaluated at a
concrete store (parent data `\x7ba: 1, b: "x"\x7d` in cell 0) and child config data
`\x7ba: 2, c: true\x7d`: the child's `a` is the parent's `1`, and overwriting the
freshly allocated child cell 1 leaves cell 0 unchanged. -/
theorem child_data_inherits_parent_last_witness :
    lookupObj (mergeObjGo [("a", JVal.num 2), ("c", .bool true)]
        [("a", .num 1), ("b", .str "x")]) "a" = some (.num 1) ∧
    (∀ newObj,
      (((ctxDataConstruct [[("a", JVal.num 1), ("b", .str "x")]]
          (some [("a", .num 2), ("c", .bool true)]) (some 0)).1.set 1
            newObj).get? 0)
        = some [("a", JVal.num 1), ("b", .str "x")]) := by
  have h := child_data_inherits_parent_last
    [[("a", JVal.num 1), ("b", .str "x")]]
    [("a", .num 2), ("c", .bool true)]
    [("a", .num 1), ("b", .str "x")] 0 rfl (by decide) (by decide)
  refine ⟨?_, ?_⟩
  · have h2 := h.2.1 "a" (.num 1) rfl
    simpa [lookupObj, mergeVal] using h2
  · intro newObj
    simpa using h.2.2.2.2 newObj

/-- Walking up from a non-shared context equals its own chain evaluation: the
shared-context short circuit in `_evalCallStackNamesChain` is the only
difference between the two, and the walk stops early at a stored chain exactly
as the evaluation does. -/
theorem walkUp_some_eq (p : Ctx) (hp : p.isShared = false) :
    walkUp (some p) = evalChain p := by
  cases p with
  | mk id fn cn sn chain par sh =>
    simp only [Ctx.isShared] at hp
    subst hp
    cases chain with
    | some ch =>
      simp [walkUp, evalChain, Ctx.chain, Ctx.isShared]
    | none =>
      simp [walkUp, evalChain, Ctx.chain, Ctx.isShared, Ctx.parent, frameOf,
        Ctx.fnName, Ctx.className, Ctx.serviceName, Ctx.id]

/-- C6 counterexample: for `P` the shared root context (created by
`sharedInit` with `fnName = "main"`), a child of `P` does **not** have
`P.callStackName` extended by its own frame: `P`'s own evaluation
short-circuits to the empty chain, but the parent walk of the child tests
only the stored chain field of its ancestors, so the shared root contributes
its `"main"` frame to the child.  The child renders as `"main.g"`, while the
claim would require `"g"`. -/
theorem shared_parent_breaks_lineage_extension :
    evalChain (ctxNew (some "svc") "CID" { fnName := some "g", parent := some (Ctx.mk "SID" (some "main") none (some "svc") none none true) }) ≠
      evalChain (Ctx.mk "SID" (some "main") none (some "svc") none none true) ++
        [frameOf (ctxNew (some "svc") "CID" { fnName := some "g", parent := some (Ctx.mk "SID" (some "main") none (some "svc") none none true) })] ∧
    callStackNameOf (some "svc")
      (Ctx.mk "SID" (some "main") none (some "svc") none none true) = "" ∧
    callStackNameOf (some "svc")
      (ctxNew (some "svc") "CID" { fnName := some "g", parent := some (Ctx.mk "SID" (some "main") none (some "svc") none none true) })
      = "main.g" := by
  refine ⟨?_, rfl, ?_⟩
  · simp [ctxNew, evalChain, walkUp, frameOf, Ctx.isShared, Ctx.chain,
      Ctx.parent, Ctx.fnName, Ctx.className, Ctx.serviceName, Ctx.id, fnOrId]
  · simp only [callStackNameOf, ctxNew, evalChain, walkUp, frameOf,
      Ctx.isShared, Ctx.chain, Ctx.parent, Ctx.fnName, Ctx.className,
      Ctx.serviceName, Ctx.id, fnOrId, renderChain, renderStep, strTruthy]
    decide

/-- C6 as amended: for every **non-shared** context `P`, a child constructed
with parent `P` has a call-stack chain equal to `P`'s chain extended by the
child's own frame; and a context reconstructed from `P.toHash()` (which has no
live parent reference) yields, for a child with the same frame, the same chain
and the same rendered `callStackName` as the child of `P` — the chain is
carried in the hash, not recomputed. -/
theorem lineage_preserved (ambient : Option String) (p : Ctx)
    (cid cid' rid : String) (fv cv sv : Option String)
    (dat : Option Obj) (sp : Option String)
    (hp : p.isShared = false) (hfn : strTruthy fv = true) :
    evalChain (ctxNew ambient cid { fnName := fv, className := cv, serviceName := sv, parent := some p })
      = evalChain p ++ [frameOf (ctxNew ambient cid { fnName := fv, className := cv, serviceName := sv, parent := some p })] ∧
    (ctxFromHashData ambient rid (toHashData ambient p dat sp)).parent = none ∧
    evalChain (ctxNew ambient cid' { fnName := fv, className := cv, serviceName := sv, parent := some (ctxFromHashData ambient rid (toHashData ambient p dat sp)) })
      = evalChain (ctxNew ambient cid { fnName := fv, className := cv, serviceName := sv, parent := some p }) ∧
    callStackNameOf ambient (ctxNew ambient cid' { fnName := fv, className := cv, serviceName := sv, parent := some (ctxFromHashData ambient rid (toHashData ambient p dat sp)) })
      = callStackNameOf ambient (ctxNew ambient cid { fnName := fv, className := cv, serviceName := sv, parent := some p }) := by
  obtain ⟨s, hs⟩ : ∃ s, fv = some s := by
    cases fv with
    | none => simp [strTruthy] at hfn
    | some s => exact ⟨s, rfl⟩
  subst hs
  have hne : s ≠ "" := by simpa [strTruthy] using hfn
  have hchild : ∀ (cid'' : String) (q : Ctx),
      evalChain (ctxNew ambient cid'' { fnName := some s, className := cv, serviceName := sv, parent := some q })
        = walkUp (some q) ++ [frameOf (ctxNew ambient cid'' { fnName := some s, className := cv, serviceName := sv, parent := some q })] := by
    intro cid'' q
    simp [ctxNew, evalChain, Ctx.isShared, Ctx.chain, Ctx.parent]
  have hframe : ∀ cid'' : String,
      frameOf (ctxNew ambient cid'' { fnName := some s, className := cv, serviceName := sv, parent := some p })
        = { fnName := s, className := cv, serviceName := sv <|> ambient } := by
    intro cid''
    simp [ctxNew, frameOf, Ctx.fnName, Ctx.className, Ctx.serviceName, Ctx.id,
      fnOrId, hne]
  have hframeR :
      frameOf (ctxNew ambient cid' { fnName := some s, className := cv, serviceName := sv, parent := some (ctxFromHashData ambient rid (toHashData ambient p dat sp)) })
        = { fnName := s, className := cv, serviceName := sv <|> ambient } := by
    simp [ctxNew, frameOf, Ctx.fnName, Ctx.className, Ctx.serviceName, Ctx.id,
      fnOrId, hne]
  have hR : walkUp (some (ctxFromHashData ambient rid (toHashData ambient p dat sp)))
      = evalChain p := by
    simp [ctxFromHashData, ctxNew, toHashData, walkUp]
  have h1 : evalChain (ctxNew ambient cid { fnName := some s, className := cv, serviceName := sv, parent := some p })
      = evalChain p ++ [frameOf (ctxNew ambient cid { fnName := some s, className := cv, serviceName := sv, parent := some p })] := by
    rw [hchild cid p, walkUp_some_eq p hp]
  have h3 : evalChain (ctxNew ambient cid' { fnName := some s, className := cv, serviceName := sv, parent := some (ctxFromHashData ambient rid (toHashData ambient p dat sp)) })
      = evalChain (ctxNew ambient cid { fnName := some s, className := cv, serviceName := sv, parent := some p }) := by
    rw [hchild cid' _, hR, hchild cid p, walkUp_some_eq p hp, hframeR,
      hframe cid]
  refine ⟨h1, ?_, h3, ?_⟩
  · simp [ctxFromHashData, ctxNew, Ctx.parent]
  · simp only [callStackNameOf]
    rw [h3]

/-- C6 witness: the amended lineage law evaluated for a concrete non-shared
parent and a child frame named `"g"`. -/
theorem lineage_preserved_witness :
    (Ctx.mk "PID" (some "root") none none none none false).isShared = false ∧
    strTruthy (some "g") = true ∧
    evalChain (ctxNew (some "svc") "C1" { fnName := some "g", className := none, serviceName := none, parent := some (Ctx.mk "PID" (some "root") none none none none false) })
      = evalChain (Ctx.mk "PID" (some "root") none none none none false)
        ++ [frameOf (ctxNew (some "svc") "C1" { fnName := some "g", className := none, serviceName := none, parent := some (Ctx.mk "PID" (some "root") none none none none false) })] :=
  ⟨rfl, rfl,
    (lineage_preserved (some "svc") (Ctx.mk "PID" (some "root") none none none none false)
      "C1" "C2" "RID" (some "g") none none none none rfl rfl).1⟩

/-- C7: `sharedInit` is idempotent.  Whatever the state, initializing and then
initializing again — with an arbitrary second configuration and an arbitrary
fresh id for the context the second call would create — returns the pair
produced by the first call unchanged: the same global state (drivers, levels,
inject mode) and the same shared context instance; the second configuration is
ignored entirely. -/
theorem sharedInit_idempotent (s : GState) (c₁ c₂ : SharedInitCfg)
    (id₁ id₂ : String) :
    sharedInitM (sharedInitM s c₁ id₁).1 c₂ id₂ = sharedInitM s c₁ id₁ := by
  cases hs : s.shared with
  | some sh => simp [sharedInitM, hs]
  | none => simp [sharedInitM, hs]

/-- C8 counterexample: `traceFinish` called twice on a context with an
attached span is **not** a no-op the second time — the span's `finish()` runs
again (the finish count goes from 1 to 2), because `traceFinish` never clears
the `span` field. -/
theorem traceFinish_second_call_not_noop :
    traceFinishM (traceFinishM (some { status := .ok, finishCount := 0 }) .ok) .ok ≠
    traceFinishM (some { status := .ok, finishCount := 0 }) .ok := by
  decide

/-- C8 as amended: `traceFinish` assigns the status and finishes the span when
one is attached and is a no-op when none is attached, but it is not
idempotent: a second call on a context whose span is attached sets the status
and calls `finish()` on the span a second time. -/
theorem traceFinish_behavior (sp : SpanM) (st st' : SpanStatus) :
    traceFinishM none st = none ∧
    traceFinishM (some sp) st
      = some { status := st, finishCount := sp.finishCount + 1 } ∧
    traceFinishM (traceFinishM (some sp) st) st'
      = some { status := st', finishCount := sp.finishCount + 2 } := by
  refine ⟨rfl, rfl, ?_⟩
  simp [traceFinishM]

/-- C5: the code bug evaluated.  `_log` **computes** the sanitized copy of the
payload (`$ctx` stripped) but never uses it: `JSON.stringify` runs on the
original data, throws on the circular `$ctx` reference, and the swallowed
exception leaves `plainData` undefined — the driver receives `undefined`
instead of the `$ctx`-stripped clone the claim (and the source's own comment)
describe.  The second and third conjuncts show what the sanitized path would
have produced: the dead `dataToStringify` value is `\x7ba: 1\x7d` and it would have
serialized fine. -/
theorem ctx_payload_dropped_not_stripped :
    logRun true false (some .info) none .info "m"
        [.obj [("$ctx", .ctx), ("a", .num 1)]]
      = .ok (some { level := .info, message := "m", data := none }) ∧
    [LVal.obj [("$ctx", .ctx), ("a", .num 1)]].map stripCtxTop
      = [.obj [("a", .num 1)]] ∧
    jsonRoundTrip (.obj [("a", .num 1)]) = some (.obj [("a", .num 1)]) := by
  refine ⟨rfl, ?_, rfl⟩
  simp [stripCtxTop, lookupLField, lvalTruthy]

/-- C10: `critical` needs a bound trace context even though the context is
optional at construction.  With a driver, outside silent mode and at any valid
instance level: a logger **with** a context emits exactly one driver call and
then invokes the context's `errorNotify` exactly once with an error built from
the message; a logger **without** a context still emits the one driver call
but then throws dereferencing the absent context.  Moreover a context-less
logger's `critical` throws under *every* driver/level/silent combination. -/
theorem critical_requires_bound_ctx (l : Level) (scope : Option String)
    (msg : String) (data : List LVal) :
    ((criticalRun { traceCtx := true, driver := true, level := some l, scope := scope } false msg data).calls.length = 1 ∧
     (criticalRun { traceCtx := true, driver := true, level := some l, scope := scope } false msg data).notes = [msg] ∧
     (criticalRun { traceCtx := true, driver := true, level := some l, scope := scope } false msg data).err = none) ∧
    ((criticalRun { traceCtx := false, driver := true, level := some l, scope := scope } false msg data).calls.length = 1 ∧
     (criticalRun { traceCtx := false, driver := true, level := some l, scope := scope } false msg data).notes = [] ∧
     (criticalRun { traceCtx := false, driver := true, level := some l, scope := scope } false msg data).err = some .ctxUndefined) ∧
    (∀ (dr silent : Bool) (lvl : Option Level),
      (criticalRun { traceCtx := false, driver := dr, level := lvl, scope := scope } silent msg data).err.isSome) := by
  have hg : logGate true false (some l) .error = .ok true := by
    cases l <;> rfl
  refine ⟨?_, ?_, ?_⟩
  · simp [criticalRun, logRun, hg]
  · simp [criticalRun, logRun, hg]
  · intro dr silent lvl
    unfold criticalRun
    cases h : logRun dr silent lvl scope .error msg data with
    | error e => simp
    | ok oc => simp

/-- C9: a `Logger` can be constructed without a driver (construction is a
total function), and on such a logger every leveled call — debug, verbose,
info, warn, error, and the log step of critical — throws the no-driver error
at emit time instead of being silently dropped, for every global level,
instance level, scope, silent flag, message and payload. -/
theorem driverless_logger_throws_at_emit (gl lv : Option Level)
    (scope : Option String) (hasCtx silent : Bool) (msg : String)
    (data : List LVal) :
    let lg := mkLogger gl { traceCtx := hasCtx, driver := false, level := lv, scope := scope }
    lg.driver = false ∧
    debugRun lg silent msg data = .error .noDriver ∧
    verboseRun lg silent msg data = .error .noDriver ∧
    infoRun lg silent msg data = .error .noDriver ∧
    warnRun lg silent msg data = .error .noDriver ∧
    errorRun lg silent msg data = .error .noDriver ∧
    (criticalRun lg silent msg data).err = some (.log .noDriver) ∧
    (criticalRun lg silent msg data).calls = [] := by
  refine ⟨rfl, ?_, ?_, ?_, ?_, ?_, ?_, ?_⟩ <;>
    simp [mkLogger, debugRun, verboseRun, infoRun, warnRun, errorRun,
      criticalRun, logRun, logGate]

end Tracer
